import Mathlib

/-!
Verification of the Winwheel wheel library (segment geometry, animation
planning, hit testing, text layout and error handling) against its
natural-language specification.

The JavaScript source is embedded shallowly:

* JS numbers are modelled as exact rationals (`ℚ`) except in the hit tester,
  where `Math.atan` / `Math.sqrt` force real numbers (`ℝ`).
* A nullable JS field is an `Option`; JS truthiness of sizes / style strings
  is modelled explicitly (`sizeTruthy`, `strTruthy`).
* A thrown `Error` is `Except.error` carrying the message string.
* Canvas context calls are recorded as a trace of `CanvasOp` values.
-/

/-! ## Segment sizer (Winwheel.updateSegmentSizes / deleteSegment) -/

/-- JS truthiness of `segment.options.size`: `null` (here `none`) and `0` are
falsy, every other number is truthy. -/
def sizeTruthy : Option ℚ → Bool
  | none => false
  | some q => q != 0

/-- Accumulation `arcUsed += segment.options.size` over segments whose size is
set (truthy), mirroring the first `forEach` of `updateSegmentSizes`. -/
def arcUsed : List (Option ℚ) → ℚ
  | [] => 0
  | o :: rest => (if sizeTruthy o then o.getD 0 else 0) + arcUsed rest

/-- The `numSet` counter of `updateSegmentSizes`: how many segments have a
truthy explicit size. -/
def numSet : List (Option ℚ) → ℕ
  | [] => 0
  | o :: rest => (if sizeTruthy o then 1 else 0) + numSet rest

/-- Number of segments whose size is not set (auto-sized). -/
def numUnset : List (Option ℚ) → ℕ
  | [] => 0
  | o :: rest => (if sizeTruthy o then 0 else 1) + numUnset rest

/-- The `degreesEach` computation of `updateSegmentSizes`: when arc is left it
is shared over `numSegments - numSet` segments, otherwise each share is `0`.
In JS a division by zero here yields `Infinity`; in `ℚ` it yields `0`. The
quotient is only ever consumed by auto-sized segments, and when one exists the
denominator is positive, so the two semantics agree on every reachable use. -/
def degreesEach (numSegments : ℕ) (sizes : List (Option ℚ)) : ℚ :=
  let arcLeft := 360 - arcUsed sizes
  if 0 < arcLeft then arcLeft / ((numSegments : ℚ) - (numSet sizes : ℚ)) else 0

/-- One loop step `currentDegree += segment.options.size || degreesEach`:
a truthy size wins, otherwise the shared `degreesEach` is used. -/
def stepOf (degEach : ℚ) (o : Option ℚ) : ℚ :=
  if sizeTruthy o then o.getD 0 else degEach

/-- Second loop of `updateSegmentSizes`: walk the segments accumulating
`currentDegree`, assigning each segment `startAngle = currentDegree` and
`endAngle = currentDegree + step`. -/
def assignSpans (degEach : ℚ) : List (Option ℚ) → ℚ → List (ℚ × ℚ)
  | [], _ => []
  | o :: rest, currentDegree =>
      (currentDegree, currentDegree + stepOf degEach o) ::
        assignSpans degEach rest (currentDegree + stepOf degEach o)

/-- `Winwheel.updateSegmentSizes`: computes the `(startAngle, endAngle)` span
of every segment from the segment sizes and the wheel's `numSegments` option.
On an empty segment list the JS function returns early without touching
anything, which coincides with producing the empty span list. -/
def updateSegmentSizes (numSegments : ℕ) (sizes : List (Option ℚ)) : List (ℚ × ℚ) :=
  assignSpans (degreesEach numSegments sizes) sizes 0

/-- lodash `pullAt(array, position)` removes the element at `position` from the
array and returns the list of REMOVED elements. `Winwheel.deleteSegment`
assigns this return value back to `this.segments`. Modelled for in-range
positions (an out-of-range JS call would return `[undefined]`). -/
def pullAtRemoved (l : List α) (position : ℕ) : List α :=
  (l.drop position).take 1

/-- `Winwheel.deleteSegment`: refuses to delete when at most one segment is
left; with a position it runs `this.segments = pullAt(this.segments, position)`,
without one it pops the last segment; then decrements `numSegments`. Returns
the new `(numSegments, segments)` pair; the caller then reruns
`updateSegmentSizes`. -/
def deleteSegment (numSegments : ℕ) (segs : List (Option ℚ)) (position : Option ℕ) :
    ℕ × List (Option ℚ) :=
  if segs.length ≤ 1 then (numSegments, segs)
  else
    let newSegs :=
      match position with
      | some p => pullAtRemoved segs p
      | none => segs.dropLast
    (numSegments - 1, newSegs)

/-- Total angle consumed by the assignment loop. -/
def sumSteps (degEach : ℚ) : List (Option ℚ) → ℚ
  | [] => 0
  | o :: rest => stepOf degEach o + sumSteps degEach rest

theorem numSet_add_numUnset (sizes : List (Option ℚ)) :
    numSet sizes + numUnset sizes = sizes.length := by
  induction sizes with
  | nil => rfl
  | cons o rest ih =>
      simp only [numSet, numUnset, List.length_cons]
      by_cases h : sizeTruthy o = true <;> simp [h] <;> omega

theorem sumSteps_eq (degEach : ℚ) (sizes : List (Option ℚ)) :
    sumSteps degEach sizes = arcUsed sizes + (numUnset sizes : ℚ) * degEach := by
  induction sizes with
  | nil => simp [sumSteps, arcUsed, numUnset]
  | cons o rest ih =>
      simp only [sumSteps, arcUsed, numUnset, stepOf, ih]
      by_cases h : sizeTruthy o = true <;> simp [h] <;> ring

theorem assignSpans_length (degEach : ℚ) (sizes : List (Option ℚ)) (c : ℚ) :
    (assignSpans degEach sizes c).length = sizes.length := by
  induction sizes generalizing c with
  | nil => rfl
  | cons o rest ih => simp [assignSpans, ih]

theorem assignSpans_head (degEach : ℚ) (o : Option ℚ) (rest : List (Option ℚ)) (c : ℚ) :
    (assignSpans degEach (o :: rest) c).head? = some (c, c + stepOf degEach o) := rfl

theorem assignSpans_getLast (degEach : ℚ) (sizes : List (Option ℚ)) (c : ℚ)
    (h : sizes ≠ []) :
    ∃ s, (assignSpans degEach sizes c).getLast? = some (s, c + sumSteps degEach sizes) := by
  induction sizes generalizing c with
  | nil => exact absurd rfl h
  | cons o rest ih =>
      cases rest with
      | nil =>
          refine ⟨c, ?_⟩
          simp [assignSpans, sumSteps]
      | cons o2 rest2 =>
          obtain ⟨s, hs⟩ := ih (c + stepOf degEach o) (by simp)
          refine ⟨s, ?_⟩
          rw [show assignSpans degEach (o :: o2 :: rest2) c =
            (c, c + stepOf degEach o) ::
              assignSpans degEach (o2 :: rest2) (c + stepOf degEach o) from rfl]
          rw [List.getLast?_cons, hs]
          simp only [Option.getD_some, Option.some.injEq, Prod.mk.injEq, true_and]
          simp only [sumSteps]
          ring

theorem assignSpans_chain (degEach : ℚ) (sizes : List (Option ℚ)) (c : ℚ) :
    ∀ i p q, (assignSpans degEach sizes c).get? i = some p →
      (assignSpans degEach sizes c).get? (i + 1) = some q → p.2 = q.1 := by
  induction sizes generalizing c with
  | nil => intro i p q hp; simp [assignSpans] at hp
  | cons o rest ih =>
      intro i p q hp hq
      cases i with
      | zero =>
          simp only [assignSpans, List.get?_cons_zero, Option.some.injEq] at hp
          cases rest with
          | nil => simp [assignSpans] at hq
          | cons o2 rest2 =>
              simp only [assignSpans, List.get?_cons_succ, List.get?_cons_zero,
                Option.some.injEq] at hq
              rw [← hp, ← hq]
      | succ n =>
          simp only [assignSpans, List.get?_cons_succ] at hp hq
          exact ih (c + stepOf degEach o) n p q hp hq

theorem assignSpans_mono (degEach : ℚ) (sizes : List (Option ℚ)) (c : ℚ)
    (h : ∀ o ∈ sizes, 0 ≤ stepOf degEach o) :
    ∀ p ∈ assignSpans degEach sizes c, p.1 ≤ p.2 := by
  induction sizes generalizing c with
  | nil => intro p hp; simp [assignSpans] at hp
  | cons o rest ih =>
      intro p hp
      simp only [assignSpans, List.mem_cons] at hp
      rcases hp with hp | hp
      · subst hp
        have := h o (List.mem_cons_self o rest)
        simpa using this
      · exact ih (c + stepOf degEach o) (fun o2 ho2 => h o2 (List.mem_cons_of_mem o ho2)) p hp

theorem degreesEach_nonneg (n : ℕ) (sizes : List (Option ℚ))
    (hn : n = sizes.length) : 0 ≤ degreesEach n sizes := by
  unfold degreesEach
  by_cases h : 0 < 360 - arcUsed sizes
  · rw [if_pos h]
    apply div_nonneg (le_of_lt h)
    have hle : numSet sizes ≤ sizes.length := by
      have := numSet_add_numUnset sizes
      omega
    rw [hn]
    have : (numSet sizes : ℚ) ≤ (sizes.length : ℚ) := by exact_mod_cast hle
    linarith
  · rw [if_neg h]

theorem numUnset_pos_of_falsy (sizes : List (Option ℚ)) (o : Option ℚ)
    (ho : o ∈ sizes) (hfalse : sizeTruthy o = false) : 0 < numUnset sizes := by
  induction sizes with
  | nil => simp at ho
  | cons o2 rest ih =>
      simp only [numUnset]
      rcases List.mem_cons.mp ho with rfl | hmem
      · rw [hfalse]; simp
      · have := ih hmem
        omega

theorem sumSteps_degreesEach (n : ℕ) (sizes : List (Option ℚ))
    (hn : n = sizes.length)
    (hsum : arcUsed sizes ≤ 360)
    (hcover : (∃ o ∈ sizes, sizeTruthy o = false) ∨ arcUsed sizes = 360) :
    sumSteps (degreesEach n sizes) sizes = 360 := by
  have hcount := numSet_add_numUnset sizes
  rw [sumSteps_eq]
  by_cases hunset : numUnset sizes = 0
  · -- every size is explicitly set, so the cover hypothesis forces the sum to be 360
    have harc : arcUsed sizes = 360 := by
      rcases hcover with ⟨o, ho, hfalse⟩ | h
      · exact absurd (numUnset_pos_of_falsy sizes o ho hfalse) (by omega)
      · exact h
    rw [hunset, harc]
    norm_num
  · -- at least one auto-sized segment exists
    rcases lt_or_eq_of_le hsum with hlt | heq
    · have hpos : 0 < 360 - arcUsed sizes := by linarith
      unfold degreesEach
      rw [if_pos hpos]
      have hden : (n : ℚ) - (numSet sizes : ℚ) = (numUnset sizes : ℚ) := by
        rw [hn]
        have : (sizes.length : ℚ) = (numSet sizes : ℚ) + (numUnset sizes : ℚ) := by
          exact_mod_cast hcount.symm
        linarith
      rw [hden]
      have hne : (numUnset sizes : ℚ) ≠ 0 := by
        exact_mod_cast hunset
      field_simp
    · unfold degreesEach
      rw [heq]
      norm_num

/-- C1 counterexample: a single segment with explicit size `100`. The explicit
and auto-shared sizes sum to `100 ≤ 360`, yet `updateSegmentSizes` produces the
single span `[0, 100]`, whose last end angle is `100`, not `360`. -/
theorem updateSegmentSizes_not_always_360 :
    updateSegmentSizes 1 [some 100] = [(0, 100)] ∧
    arcUsed [some 100] ≤ 360 ∧
    ¬ ((100 : ℚ) = 360) := by
  refine ⟨?_, by norm_num [arcUsed, sizeTruthy], by norm_num⟩
  norm_num [updateSegmentSizes, assignSpans, stepOf, degreesEach, arcUsed, numSet, sizeTruthy]

/-- C1 (amended): for every nonempty segment list whose explicit sizes are
nonnegative and sum to at most 360, and in which either some segment is
auto-sized or the explicit sizes sum to exactly 360, `updateSegmentSizes`
produces one span per segment, the first span starts at 0, the last span ends
at 360, consecutive spans are contiguous (each end angle equals the next start
angle) and every span is non-decreasing. Without the added disjunction the
last end angle can fall short of 360 (see the counterexample). -/
theorem updateSegmentSizes_partition_amended (numSegments : ℕ) (sizes : List (Option ℚ))
    (hn : numSegments = sizes.length) (hne : sizes ≠ [])
    (hpos : ∀ o ∈ sizes, ∀ q : ℚ, o = some q → 0 ≤ q)
    (hsum : arcUsed sizes ≤ 360)
    (hcover : (∃ o ∈ sizes, sizeTruthy o = false) ∨ arcUsed sizes = 360) :
    (updateSegmentSizes numSegments sizes).length = sizes.length ∧
    (∃ p, (updateSegmentSizes numSegments sizes).head? = some p ∧ p.1 = 0) ∧
    (∃ p, (updateSegmentSizes numSegments sizes).getLast? = some p ∧ p.2 = 360) ∧
    (∀ i p q, (updateSegmentSizes numSegments sizes).get? i = some p →
      (updateSegmentSizes numSegments sizes).get? (i + 1) = some q → p.2 = q.1) ∧
    (∀ p ∈ updateSegmentSizes numSegments sizes, p.1 ≤ p.2) := by
  refine ⟨assignSpans_length _ _ _, ?_, ?_, assignSpans_chain _ _ _, ?_⟩
  · cases sizes with
    | nil => exact absurd rfl hne
    | cons o rest =>
        exact ⟨(0, 0 + stepOf (degreesEach numSegments (o :: rest)) o),
          assignSpans_head _ _ _ _, rfl⟩
  · obtain ⟨s, hs⟩ := assignSpans_getLast (degreesEach numSegments sizes) sizes 0 hne
    refine ⟨(s, 0 + sumSteps (degreesEach numSegments sizes) sizes), hs, ?_⟩
    simp only
    rw [sumSteps_degreesEach numSegments sizes hn hsum hcover]
    norm_num
  · apply assignSpans_mono
    intro o ho
    unfold stepOf
    by_cases ht : sizeTruthy o = true
    · rw [if_pos ht]
      cases o with
      | none => simp [sizeTruthy] at ht
      | some q => exact hpos (some q) ho q rfl
    · rw [if_neg ht]
      exact degreesEach_nonneg numSegments sizes hn

/-- C1 witness: a 3-segment wheel with sizes `[90, auto, auto]` satisfies all
hypotheses and gets the full partition `[0,90],[90,225],[225,360]`. -/
theorem updateSegmentSizes_partition_witness :
    (updateSegmentSizes 3 [some 90, none, none]).length = 3 ∧
    (∃ p, (updateSegmentSizes 3 [some 90, none, none]).head? = some p ∧ p.1 = 0) ∧
    (∃ p, (updateSegmentSizes 3 [some 90, none, none]).getLast? = some p ∧ p.2 = 360) := by
  have h := updateSegmentSizes_partition_amended 3 [some 90, none, none]
    (by simp) (by simp)
    (by
      intro o ho q hq
      subst hq
      simp only [List.mem_cons, List.not_mem_nil, or_false] at ho
      rcases ho with h1 | h1 | h1
      · rw [Option.some.injEq] at h1
        rw [h1]; norm_num
      · exact absurd h1 (by simp)
      · exact absurd h1 (by simp))
    (by norm_num [arcUsed, sizeTruthy])
    (Or.inl ⟨none, by simp, by simp [sizeTruthy]⟩)
  exact ⟨h.1, h.2.1, h.2.2.1⟩

/-- C2: evaluation of the concrete scenario. A 4-segment auto wheel gets the
spans `[0,90],[90,180],[180,270],[270,360]` as claimed, but
`deleteSegment(1)` assigns the return value of lodash `pullAt` — the list of
REMOVED elements — to `this.segments`, so the wheel keeps only the deleted
segment: one segment remains (with `numSegments` now 3) and the resize gives
it the single span `[0,120]`, not the claimed three spans. -/
theorem deleteSegment_pullAt_eval :
    updateSegmentSizes 4 [none, none, none, none] =
      [(0, 90), (90, 180), (180, 270), (270, 360)] ∧
    deleteSegment 4 [none, none, none, none] (some 1) = (3, [none]) ∧
    updateSegmentSizes 3 [none] = [(0, 120)] ∧
    ([(0, 120)] : List (ℚ × ℚ)).length ≠ 3 := by
  refine ⟨?_, ?_, ?_, by simp⟩
  · norm_num [updateSegmentSizes, assignSpans, stepOf, degreesEach, arcUsed, numSet, sizeTruthy]
  · simp [deleteSegment, pullAtRemoved]
  · norm_num [updateSegmentSizes, assignSpans, stepOf, degreesEach, arcUsed, numSet, sizeTruthy]


/-! ## Rotation resolver (Winwheel.getRotationPosition) -/

/-- `Winwheel.getRotationPosition`: corrects `rotationAngle` to a 0-360 value.
For a nonnegative angle above 360 it subtracts `360 * floor(angle/360)`; for a
negative angle below -360 it subtracts `360 * ceil(angle/360)` (a negative
count) and then, for every negative angle, adds 360. -/
def getRotationPosition (rawAngle : ℚ) : ℚ :=
  if 0 ≤ rawAngle then
    if 360 < rawAngle then rawAngle - 360 * (⌊rawAngle / 360⌋ : ℚ) else rawAngle
  else
    (if rawAngle < -360 then rawAngle - 360 * (⌈rawAngle / 360⌉ : ℚ) else rawAngle) + 360

theorem getRotationPosition_range (x : ℚ) :
    0 ≤ getRotationPosition x ∧ getRotationPosition x ≤ 360 := by
  unfold getRotationPosition
  by_cases h0 : 0 ≤ x
  · rw [if_pos h0]
    by_cases h1 : 360 < x
    · rw [if_pos h1]
      have hfr : x - 360 * (⌊x / 360⌋ : ℚ) = 360 * Int.fract (x / 360) := by
        unfold Int.fract
        field_simp
      rw [hfr]
      have h2 := Int.fract_nonneg (x / 360)
      have h3 := Int.fract_lt_one (x / 360)
      constructor <;> nlinarith
    · rw [if_neg h1]
      exact ⟨h0, le_of_not_lt h1⟩
  · rw [if_neg h0]
    push_neg at h0
    by_cases h1 : x < -360
    · rw [if_pos h1]
      have hle := Int.le_ceil (x / 360)
      have hlt := Int.ceil_lt_add_one (x / 360)
      constructor <;> nlinarith
    · rw [if_neg h1]
      push_neg at h1
      constructor <;> linarith

/-- C3 counterexample: at `x = 360` the normalizer returns `360`, which is not
in `[0,360)` and differs from the claimed positive-branch formula
`x - 360*floor(x/360) = 0`; at `x = -360` it returns `0` while the claimed
negative-branch formula `x - 360*ceil(x/360) + 360` gives `360`. -/
theorem getRotationPosition_boundary_ce :
    getRotationPosition 360 = 360 ∧
    ¬ getRotationPosition 360 < 360 ∧
    (360 : ℚ) - 360 * (⌊(360 : ℚ) / 360⌋ : ℚ) = 0 ∧
    getRotationPosition (-360) = 0 ∧
    (-360 : ℚ) - 360 * (⌈(-360 : ℚ) / 360⌉ : ℚ) + 360 = 360 := by
  refine ⟨?_, ?_, ?_, ?_, ?_⟩
  · norm_num [getRotationPosition]
  · norm_num [getRotationPosition]
  · norm_num
  · norm_num [getRotationPosition]
  · have h1 : ((-360 : ℚ) / 360) = ((-1 : ℤ) : ℚ) := by norm_num
    rw [h1, Int.ceil_intCast]
    norm_num

theorem getRotationPosition_fixed (y : ℚ) (h0 : 0 ≤ y) (h1 : y ≤ 360) :
    getRotationPosition y = y := by
  unfold getRotationPosition
  rw [if_pos h0, if_neg (not_lt.mpr h1)]

/-- C3 (amended): the normalizer is idempotent for every finite `x` and always
returns a value in `[0,360]` — the closed upper end is attained, e.g. at
`x = 360`. For `0 ≤ x ≤ 360` it returns `x` unchanged; for `x > 360` it equals
`x - 360*floor(x/360)` and lies in `[0,360)`; for `-360 ≤ x < 0` it equals
`x + 360`; for `x < -360` it equals `x - 360*ceil(x/360) + 360`. -/
theorem getRotationPosition_spec_amended (x : ℚ) :
    getRotationPosition (getRotationPosition x) = getRotationPosition x ∧
    (0 ≤ getRotationPosition x ∧ getRotationPosition x ≤ 360) ∧
    (0 ≤ x ∧ x ≤ 360 → getRotationPosition x = x) ∧
    (360 < x → getRotationPosition x = x - 360 * (⌊x / 360⌋ : ℚ) ∧
      getRotationPosition x < 360) ∧
    (-360 ≤ x ∧ x < 0 → getRotationPosition x = x + 360) ∧
    (x < -360 → getRotationPosition x = x - 360 * (⌈x / 360⌉ : ℚ) + 360) := by
  obtain ⟨hr0, hr1⟩ := getRotationPosition_range x
  refine ⟨?_, ⟨hr0, hr1⟩, ?_, ?_, ?_, ?_⟩
  · -- idempotence: the result is in [0,360], where the function is the identity
    exact getRotationPosition_fixed _ hr0 hr1
  · intro ⟨h0, h1⟩
    exact getRotationPosition_fixed x h0 h1
  · intro h1
    have h0 : 0 ≤ x := by linarith
    constructor
    · unfold getRotationPosition
      rw [if_pos h0, if_pos h1]
    · have heq : getRotationPosition x = 360 * Int.fract (x / 360) := by
        unfold getRotationPosition Int.fract
        rw [if_pos h0, if_pos h1]
        field_simp
      rw [heq]
      have h3 := Int.fract_lt_one (x / 360)
      nlinarith
  · intro ⟨h0, h1⟩
    unfold getRotationPosition
    rw [if_neg (not_le.mpr h1), if_neg (not_lt.mpr h0)]
  · intro h1
    have h0 : ¬ 0 ≤ x := by linarith
    unfold getRotationPosition
    rw [if_neg h0, if_pos h1]

/-- C3 witness: at `x = 450` the normalizer returns `90 = 450 - 360*floor(450/360)`,
idempotently and inside the range. -/
theorem getRotationPosition_spec_witness :
    getRotationPosition (getRotationPosition 450) = getRotationPosition 450 ∧
    0 ≤ getRotationPosition 450 ∧
    getRotationPosition 450 = 450 - 360 * (⌊(450 : ℚ) / 360⌋ : ℚ) := by
  have h := getRotationPosition_spec_amended 450
  exact ⟨h.1, h.2.1.1, (h.2.2.2.1 (by norm_num)).1⟩

/-! ## Animation planner (Animation.defaultOptions / computeAnimation) -/

/-- State of `Animation.options` after construction. A `none` is a JS
`null`/`undefined` field. The source field `repeat` is called `repeatCount`
here because `repeat` is reserved in Lean; callbacks, `clearTheCanvas` and
`soundTrigger` are never read by `computeAnimation` and are omitted. -/
structure AnimationOptions where
  type : String
  direction : String
  propertyName : Option String
  propertyValue : Option ℚ
  duration : ℚ
  yoyo : Option Bool
  repeatCount : Option ℚ
  easing : Option String
  stopAngle : Option ℚ
  spins : Option ℚ
  deriving Repr, DecidableEq

/-- Constructor input for `Animation`. A `none` field is absent from the
options object, so lodash `defaults` fills it with the class default. For
`yoyo` — whose class default `false` is not `null` — an explicitly passed
`null` (which `defaults` leaves in place) is distinguished as `some none`. -/
structure UserAnimationOptions where
  type : Option String := none
  direction : Option String := none
  propertyName : Option String := none
  propertyValue : Option ℚ := none
  duration : Option ℚ := none
  yoyo : Option (Option Bool) := none
  repeatCount : Option ℚ := none
  easing : Option String := none
  stopAngle : Option ℚ := none
  spins : Option ℚ := none

/-- The `Animation` constructor: `this.options = defaults(options, defaultOptions)`
with the class defaults `type: 'spinOngoing'`, `direction: 'clockwise'`,
`duration: 10`, `yoyo: false` and `null` for the remaining modelled fields. -/
def mkAnimationOptions (u : UserAnimationOptions) : AnimationOptions :=
  { type := u.type.getD "spinOngoing",
    direction := u.direction.getD "clockwise",
    propertyName := u.propertyName,
    propertyValue := u.propertyValue,
    duration := u.duration.getD 10,
    yoyo := u.yoyo.getD (some false),
    repeatCount := u.repeatCount,
    easing := u.easing,
    stopAngle := u.stopAngle,
    spins := u.spins }

/-- Result of `Animation.computeAnimation`: the mutated options plus the
internal `this._stopAngle` field (absent before the call). -/
structure ComputedAnimation where
  options : AnimationOptions
  stopAngleInternal : Option ℚ
  deriving Repr, DecidableEq

/-- `Animation.computeAnimation({pointerAngle})`. `rand` stands for the
`Math.random()` sample in `[0,1)` drawn when `spinToStop` has no stop angle.
Every `x == null` check of the source is an `Option.getD`. -/
def computeAnimation (o : AnimationOptions) (pointerAngle : ℚ) (rand : ℚ) :
    ComputedAnimation :=
  if o.type = "spinOngoing" then
    let spins := o.spins.getD 5
    let pv0 := spins * 360
    let pv := if o.direction = "anti-clockwise" then 0 - pv0 else pv0
    { options := { o with
        propertyName := some "rotationAngle",
        spins := some spins,
        repeatCount := some (o.repeatCount.getD (-1)),
        easing := some (o.easing.getD "Linear.easeNone"),
        yoyo := some (o.yoyo.getD false),
        propertyValue := some pv },
      stopAngleInternal := none }
  else if o.type = "spinToStop" then
    let spins := o.spins.getD 5
    let stopA := match o.stopAngle with
      | none => ((⌊rand * 359⌋ : ℤ) : ℚ)
      | some sa => 360 - sa + pointerAngle
    let pv0 := spins * 360
    let pv := if o.direction = "anti-clockwise"
      then (0 - pv0) - (360 - stopA)
      else pv0 + stopA
    { options := { o with
        propertyName := some "rotationAngle",
        spins := some spins,
        repeatCount := some (o.repeatCount.getD 0),
        easing := some (o.easing.getD "Power3.easeOut"),
        yoyo := some (o.yoyo.getD false),
        propertyValue := some pv },
      stopAngleInternal := some stopA }
  else if o.type = "spinAndBack" then
    let spins := o.spins.getD 5
    let stopA := match o.stopAngle with
      | none => (0 : ℚ)
      | some sa => 360 - sa
    let pv0 := spins * 360
    let pv := if o.direction = "anti-clockwise"
      then (0 - pv0) - (360 - stopA)
      else pv0 + stopA
    { options := { o with
        propertyName := some "rotationAngle",
        spins := some spins,
        repeatCount := some (o.repeatCount.getD 1),
        easing := some (o.easing.getD "Power2.easeInOut"),
        yoyo := some (o.yoyo.getD true),
        propertyValue := some pv },
      stopAngleInternal := some stopA }
  else
    -- custom: every value must be supplied by the developer; nothing happens
    { options := o, stopAngleInternal := none }

/-- Clockwise spin-to-stop animation of the C4 scenario. -/
def spinToStopCW : AnimationOptions :=
  mkAnimationOptions { type := some "spinToStop", spins := some 5, stopAngle := some 90 }

/-- Anti-clockwise spin-to-stop animation of the C4 scenario. -/
def spinToStopACW : AnimationOptions :=
  mkAnimationOptions { type := some "spinToStop",
                       direction := some "anti-clockwise",
                       spins := some 5,
                       stopAngle := some 90 }

/-- C4: with direction clockwise, spins 5, stop angle 90 and pointer angle 0
the computed rotation delta is exactly `5*360 + (360 - 90 + 0) = 2070`; with
the same inputs anti-clockwise it is exactly `-(5*360) - (360 - 270) = -1890`. -/
theorem computeAnimation_spinToStop_deltas :
    (computeAnimation spinToStopCW 0 0).options.propertyValue = some 2070 ∧
    (computeAnimation spinToStopACW 0 0).options.propertyValue = some (-1890) := by
  constructor <;>
    simp [computeAnimation, spinToStopCW, spinToStopACW, mkAnimationOptions] <;> norm_num

/-- Spin-and-back animation with repeat, easing, yoyo and stop angle all left
unset by the caller (C5 scenario). -/
def spinAndBackDefault : AnimationOptions :=
  mkAnimationOptions { type := some "spinAndBack" }

/-- C5: for spin-and-back with repeat, easing, yoyo and stop angle unset, the
planner defaults repeat to 1, easing to `Power2.easeInOut` and the resolved
stop angle to 0 as claimed — but yoyo stays `false`: the constructor has
already defaulted it to `false`, so the `yoyo == null` guard that the source
comments say "needs to be set to true to have the animation reverse back like
a yo-yo" never fires. -/
theorem computeAnimation_spinAndBack_eval :
    (computeAnimation spinAndBackDefault 0 0).options.repeatCount = some 1 ∧
    (computeAnimation spinAndBackDefault 0 0).options.easing = some "Power2.easeInOut" ∧
    (computeAnimation spinAndBackDefault 0 0).stopAngleInternal = some 0 ∧
    (computeAnimation spinAndBackDefault 0 0).options.yoyo = some false := by
  refine ⟨?_, ?_, ?_, ?_⟩ <;>
    simp [computeAnimation, spinAndBackDefault, mkAnimationOptions]

/-! ## Canvas trace infrastructure -/

/-- One recorded call on the 2D canvas context. Coordinates and angles are the
exact rational arguments the source would pass. -/
inductive CanvasOp where
  | setTextAlign (v : String)
  | setTextBaseline (v : String)
  | setFont (fontWeight : Option String) (fontSizePx : Option ℚ) (fontFamily : Option String)
  | setFillStyle (v : Option String)
  | setStrokeStyle (v : Option String)
  | setLineWidth (v : ℚ)
  | save
  | restore
  | translate (x y : ℚ)
  | rotate (rad : ℚ)
  | fillText (s : String) (x y : ℚ)
  | strokeText (s : String) (x y : ℚ)
  | drawImageOp (x y w h : ℚ)
  deriving Repr, DecidableEq

/-- JS truthiness of a nullable string: `null` and the empty string are falsy. -/
def strTruthy : Option String → Bool
  | none => false
  | some s => !s.isEmpty

/-- `utils.degToRad`: the source multiplies by the literal constant
`0.0174532925199432957` (a decimal approximation of pi/180), kept exactly. -/
def degToRad (deg : ℚ) : ℚ := deg * 0.0174532925199432957

/-- `if (fillStyle) context.fillText(...)`. -/
def optFillText (fillStyle : Option String) (s : String) (x y : ℚ) : List CanvasOp :=
  if strTruthy fillStyle then [CanvasOp.fillText s x y] else []

/-- `if (strokeStyle) context.strokeText(...)`. -/
def optStrokeText (strokeStyle : Option String) (s : String) (x y : ℚ) : List CanvasOp :=
  if strTruthy strokeStyle then [CanvasOp.strokeText s x y] else []

/-- JS `string.charAt(i)`: the one-character string at index `i`, or the empty
string when `i` is out of range. -/
def charAt (s : String) (i : ℕ) : String :=
  match s.data.get? i with
  | some c => String.singleton c
  | none => ""

/-! ## Random stop angle (Winwheel.getRandomForSegment / Segment.getRandomStopAngle) -/

/-- A segment's computed angular span, as read by `getRandomStopAngle`. -/
structure RandSegment where
  startAngle : ℚ
  endAngle : ℚ
  deriving Repr, DecidableEq

/-- `Segment.getRandomStopAngle`: picks an angle at least 1 degree inside the
span. `rand` is the `Math.random()` sample in `[0,1)`. When the span is 2
degrees or narrower it logs a console message and returns the initial 0. -/
def getRandomStopAngle (s : RandSegment) (rand : ℚ) : ℚ :=
  let range := (s.endAngle - s.startAngle) - 2
  if 0 < range then s.startAngle + 1 + ((⌊rand * range⌋ : ℤ) : ℚ) else 0

/-- `Winwheel.getRandomForSegment(segmentNumber)`: a falsy argument (`null` or
`0`) throws "Segment number not specified"; an index with no segment throws
"Segment N undefined"; otherwise the segment's random stop angle is returned.
The segments array is indexed directly with `segmentNumber`. -/
def getRandomForSegment (segments : List RandSegment) (segmentNumber : Option ℕ)
    (rand : ℚ) : Except String ℚ :=
  match segmentNumber with
  | none => Except.error "Segment number not specified"
  | some n =>
      if n = 0 then Except.error "Segment number not specified"
      else
        match segments.get? n with
        | none => Except.error ("Segment " ++ toString n ++ " undefined")
        | some s => Except.ok (getRandomStopAngle s rand)

/-- C10: passing segment number 0 always raises "Segment number not specified"
— the falsy guard rejects it even when a segment exists at index 0 — while for
every index `i ≥ 1` at which a segment exists the segment's random stop angle
is returned without raising. -/
theorem getRandomForSegment_spec (segments : List RandSegment) (rand : ℚ)
    (i : ℕ) (h1 : 1 ≤ i) (h2 : i < segments.length) :
    getRandomForSegment segments (some 0) rand =
      Except.error "Segment number not specified" ∧
    getRandomForSegment segments (some i) rand =
      Except.ok (getRandomStopAngle (segments.get ⟨i, h2⟩) rand) := by
  constructor
  · rfl
  · simp only [getRandomForSegment]
    rw [if_neg (by omega)]
    rw [List.get?_eq_get h2]

/-- C10 witness: on a 2-segment wheel, segment number 0 raises although the
segment at index 0 exists, and segment number 1 returns its stop angle. -/
theorem getRandomForSegment_spec_witness :
    getRandomForSegment [⟨0, 90⟩, ⟨90, 180⟩] (some 0) 0 =
      Except.error "Segment number not specified" ∧
    getRandomForSegment [⟨0, 90⟩, ⟨90, 180⟩] (some 1) 0 =
      Except.ok (getRandomStopAngle ⟨90, 180⟩ 0) := by
  have h := getRandomForSegment_spec [⟨0, 90⟩, ⟨90, 180⟩] 0 1 (by norm_num) (by simp)
  exact h

/-! ## Segment bitmap drawing (Segment.drawImage / Winwheel.drawSegmentImages) -/

/-- Loaded state of an `Image` object: natural width and height, both `0`
until the browser's load callback fires. -/
structure ImageData where
  width : ℚ
  height : ℚ
  deriving Repr, DecidableEq

/-- The per-segment state read by `Segment.drawImage`. -/
structure SegmentImageState where
  image : Option String
  imgData : Option ImageData
  imageDirection : Option String
  startAngle : ℚ
  endAngle : ℚ
  deriving Repr, DecidableEq

/-- `Segment.renderImage`: returns early without an image path, otherwise
creates a fresh `Image` whose natural dimensions are still `0` (the load
callback has not fired yet) and stores it in `imgData`. -/
def renderImage (s : SegmentImageState) : SegmentImageState :=
  if strTruthy s.image then { s with imgData := some { width := 0, height := 0 } } else s

/-- Argument bundle of `Segment.drawImage`, as passed by
`Winwheel.drawSegmentImages`. -/
structure DrawImageArgs where
  hasContext : Bool
  centerX : ℚ
  centerY : ℚ
  scaleFactor : ℚ
  rotationAngle : ℚ
  defaultDirection : String
  deriving Repr, DecidableEq

/-- `Segment.drawImage`: without a context it returns silently; without
`imgData` it first calls `renderImage`; then, if the image's natural height is
falsy (still-unloaded bitmap), it throws "imgData is not loaded"; otherwise it
computes the position for the N/S/E/W image direction and draws rotated. -/
def segmentDrawImage (s0 : SegmentImageState) (a : DrawImageArgs) :
    Except String (List CanvasOp) :=
  if ¬ a.hasContext then Except.ok []
  else
    let s := if s0.imgData.isNone then renderImage s0 else s0
    match s.imgData with
    | none => Except.error "imgData is not loaded"
    | some img =>
        if img.height = 0 then Except.error "imgData is not loaded"
        else
          let scaledWidth := img.width * a.scaleFactor
          let scaledHeight := img.height * a.scaleFactor
          let dir := if strTruthy s.imageDirection
            then s.imageDirection.getD "" else a.defaultDirection
          let halfSpan := (s.endAngle - s.startAngle) / 2
          let imageLeft :=
            if dir = "S" then a.centerX - scaledWidth / 2
            else if dir = "E" then a.centerX
            else if dir = "W" then a.centerX - scaledWidth
            else a.centerX - scaledWidth / 2
          let imageTop :=
            if dir = "S" then a.centerY
            else if dir = "E" then a.centerY - scaledHeight / 2
            else if dir = "W" then a.centerY - scaledHeight / 2
            else a.centerY - scaledHeight
          let imageAngle :=
            if dir = "S" then s.startAngle + 180 + halfSpan
            else if dir = "E" then s.startAngle + 270 + halfSpan
            else if dir = "W" then s.startAngle + 90 + halfSpan
            else s.startAngle + halfSpan
          Except.ok
            [CanvasOp.save,
             CanvasOp.translate a.centerX a.centerY,
             CanvasOp.rotate (degToRad (a.rotationAngle + imageAngle)),
             CanvasOp.translate (-a.centerX) (-a.centerY),
             CanvasOp.drawImageOp imageLeft imageTop scaledWidth scaledHeight,
             CanvasOp.restore]

/-- `Winwheel.drawSegmentImages`: returns silently without a context;
otherwise draws every segment inside a per-segment `try`/`catch` that logs the
error with `console.error` and continues. Each list entry is one segment's
outcome: `ok` with its canvas trace, or `error` with the logged message. -/
def drawSegmentImages (hasCtx : Bool) (segments : List SegmentImageState)
    (a : DrawImageArgs) : List (Except String (List CanvasOp)) :=
  if ¬ hasCtx then [] else segments.map (fun s => segmentDrawImage s a)

/-- C8: drawing a segment bitmap whose natural height is still falsy raises
"imgData is not loaded", and the per-segment draw loop turns that error into a
logged entry while still producing exactly one independent entry per segment,
so one unloaded image cannot abort the other segments' rendering. -/
theorem drawSegmentImages_isolation (segments : List SegmentImageState)
    (a : DrawImageArgs) (i : ℕ) (s : SegmentImageState) (w : ℚ)
    (hi : segments.get? i = some s)
    (hImg : s.imgData = some { width := w, height := 0 })
    (hCtx : a.hasContext = true) :
    segmentDrawImage s a = Except.error "imgData is not loaded" ∧
    (drawSegmentImages true segments a).length = segments.length ∧
    (∀ j t, segments.get? j = some t →
      (drawSegmentImages true segments a).get? j = some (segmentDrawImage t a)) ∧
    (drawSegmentImages true segments a).get? i =
      some (Except.error "imgData is not loaded") := by
  have herr : segmentDrawImage s a = Except.error "imgData is not loaded" := by
    simp [segmentDrawImage, hImg, hCtx]
  refine ⟨herr, ?_, ?_, ?_⟩
  · unfold drawSegmentImages
    simp
  · intro j t ht
    unfold drawSegmentImages
    rw [if_neg (by simp)]
    rw [List.get?_map, ht]
    rfl
  · unfold drawSegmentImages
    rw [if_neg (by simp)]
    rw [List.get?_map, hi]
    simp [herr]

/-- C8 witness: a two-segment wheel whose first bitmap is unloaded (height 0)
and whose second is loaded still yields two entries, the first a logged error. -/
theorem drawSegmentImages_isolation_witness :
    segmentDrawImage ⟨some "a.png", some ⟨5, 0⟩, none, 0, 180⟩
        ⟨true, 200, 200, 1, 0, "N"⟩ =
      Except.error "imgData is not loaded" ∧
    (drawSegmentImages true
        [⟨some "a.png", some ⟨5, 0⟩, none, 0, 180⟩,
         ⟨some "b.png", some ⟨10, 20⟩, none, 180, 360⟩]
        ⟨true, 200, 200, 1, 0, "N"⟩).length = 2 ∧
    (drawSegmentImages true
        [⟨some "a.png", some ⟨5, 0⟩, none, 0, 180⟩,
         ⟨some "b.png", some ⟨10, 20⟩, none, 180, 360⟩]
        ⟨true, 200, 200, 1, 0, "N"⟩).get? 0 =
      some (Except.error "imgData is not loaded") := by
  have h := drawSegmentImages_isolation
    [⟨some "a.png", some ⟨5, 0⟩, none, 0, 180⟩,
     ⟨some "b.png", some ⟨10, 20⟩, none, 180, 360⟩]
    ⟨true, 200, 200, 1, 0, "N"⟩ 0 ⟨some "a.png", some ⟨5, 0⟩, none, 0, 180⟩ 5
    rfl rfl rfl
  exact ⟨h.1, h.2.1, h.2.2.2⟩

/-! ## Text layout engine (Segment._drawTextReversed / _drawTextNormal / drawText) -/

/-- Bundle of the arguments of `_drawTextReversed` / `_drawTextNormal`, plus
the segment's `_startAngle` / `_endAngle` and the wheel's `rotationAngle`
(the only field of `defaultOptions` these functions read). -/
structure TextParams where
  line : String
  lineTotal : ℕ
  centerX : ℚ
  centerY : ℚ
  outerRadius : ℚ
  innerRadius : ℚ
  fontSize : ℚ
  margin : ℚ
  lineOffset : ℚ
  fillStyle : Option String
  strokeStyle : Option String
  orientation : String
  alignment : String
  rotationAngle : ℚ
  startAngle : ℚ
  endAngle : ℚ
  deriving Repr, DecidableEq

/-- Ascending character loop of the vertical orientations: draw the character
(fill then stroke), then step `yPos` by `yInc`. -/
def vertCharsAsc (fill stroke : Option String) (x yInc : ℚ) :
    List Char → ℚ → List CanvasOp
  | [], _ => []
  | ch :: rest, yPos =>
      optFillText fill (String.singleton ch) x yPos ++
      optStrokeText stroke (String.singleton ch) x yPos ++
      vertCharsAsc fill stroke x yInc rest (yPos + yInc)

/-- Descending character loop (`for c = length-1 down to 0` with
`yPos -= yInc`): identical to walking the reversed character list forwards
with step `-yInc`. -/
def vertCharsDesc (fill stroke : Option String) (x yInc : ℚ)
    (chars : List Char) (yPos : ℚ) : List CanvasOp :=
  vertCharsAsc fill stroke x (-yInc) chars.reverse yPos

/-- Character loop of the normal curved orientation: rotate to `drawAngle`,
draw the character (stroke then fill), advance by `anglePerChar`. -/
def curvedCharsAsc (fill stroke : Option String)
    (cx cy radius lineOffset anglePerChar : ℚ) :
    List Char → ℚ → List CanvasOp
  | [], _ => []
  | ch :: rest, drawAngle =>
      [CanvasOp.save, CanvasOp.translate cx cy, CanvasOp.rotate (degToRad drawAngle),
       CanvasOp.translate (-cx) (-cy)] ++
      optStrokeText stroke (String.singleton ch) cx (cy - radius + lineOffset) ++
      optFillText fill (String.singleton ch) cx (cy - radius + lineOffset) ++
      [CanvasOp.restore] ++
      curvedCharsAsc fill stroke cx cy radius lineOffset anglePerChar rest
        (drawAngle + anglePerChar)

/-- Character loop of the reversed curved orientation. The JS loop is
`for (let c = line.length; c >= 0; c--)`: the counter argument is the number
of iterations still to run, so the iteration at counter `n + 1` reads
`charAt(n)` — the first iteration reads index `line.length`, one past the
final character. -/
def curvedCharsRev (fill stroke : Option String) (line : String)
    (cx cy radius lineOffset anglePerChar : ℚ) : ℕ → ℚ → List CanvasOp
  | 0, _ => []
  | n + 1, drawAngle =>
      [CanvasOp.save, CanvasOp.translate cx cy, CanvasOp.rotate (degToRad drawAngle),
       CanvasOp.translate (-cx) (-cy)] ++
      optStrokeText stroke (charAt line n) cx (cy + radius + lineOffset) ++
      optFillText fill (charAt line n) cx (cy + radius + lineOffset) ++
      [CanvasOp.restore] ++
      curvedCharsRev fill stroke line cx cy radius lineOffset anglePerChar n
        (drawAngle + anglePerChar)

/-- Horizontal branch of `_drawTextReversed`. -/
def drawTextReversedHorizontal (p : TextParams) : List CanvasOp :=
  let alignOp := CanvasOp.setTextAlign
    (if p.alignment = "inner" then "right"
     else if p.alignment = "outer" then "left" else "center")
  let textAngle := degToRad
    ((p.endAngle - (p.endAngle - p.startAngle) / 2 + p.rotationAngle - 90) - 180)
  let x :=
    if p.alignment = "inner" then p.centerX - p.innerRadius - p.margin
    else if p.alignment = "outer" then p.centerX - p.outerRadius + p.margin
    else p.centerX - p.innerRadius - ((p.outerRadius - p.innerRadius) / 2) - p.margin
  [alignOp, CanvasOp.setTextBaseline "middle", CanvasOp.save,
   CanvasOp.translate p.centerX p.centerY, CanvasOp.rotate textAngle,
   CanvasOp.translate (-p.centerX) (-p.centerY)] ++
  optFillText p.fillStyle p.line x (p.centerY + p.lineOffset) ++
  optStrokeText p.strokeStyle p.line x (p.centerY + p.lineOffset) ++
  [CanvasOp.restore]

/-- Vertical branch of `_drawTextReversed`. The unknown-alignment case draws
no characters (the JS if/else-if chain has no final else). -/
def drawTextReversedVertical (p : TextParams) : List CanvasOp :=
  let baselineOp := CanvasOp.setTextBaseline
    (if p.alignment = "inner" then "top"
     else if p.alignment = "outer" then "bottom" else "middle")
  let textAngle := (p.endAngle - (p.endAngle - p.startAngle) / 2 - 180) + p.rotationAngle
  let yPos0 : ℚ :=
    if p.alignment = "outer" then p.centerY + p.outerRadius - p.margin
    else if p.alignment = "inner" then p.centerY + p.innerRadius + p.margin
    else 0
  let yInc := p.fontSize - p.fontSize / 9
  let x := p.centerX + p.lineOffset
  let loopOps :=
    if p.alignment = "outer" then
      vertCharsDesc p.fillStyle p.strokeStyle x yInc p.line.data yPos0
    else if p.alignment = "inner" then
      vertCharsAsc p.fillStyle p.strokeStyle x yInc p.line.data yPos0
    else if p.alignment = "center" then
      let centerAdjustment :=
        if 1 < p.line.length then yInc * ((p.line.length : ℚ) - 1) / 2 else 0
      let yPos2 := p.centerY + p.innerRadius + (p.outerRadius - p.innerRadius) / 2 +
        centerAdjustment + p.margin
      vertCharsDesc p.fillStyle p.strokeStyle x yInc p.line.data yPos2
    else []
  [CanvasOp.setTextAlign "center", baselineOp, CanvasOp.save,
   CanvasOp.translate p.centerX p.centerY, CanvasOp.rotate (degToRad textAngle),
   CanvasOp.translate (-p.centerX) (-p.centerY)] ++ loopOps ++ [CanvasOp.restore]

/-- The `context.textAlign` assignment of both curved branches: 'left' for
multi-character lines, 'center' for a single character. -/
def curvedTextAlignOps (lineLength : ℕ) : List CanvasOp :=
  if 1 < lineLength then [CanvasOp.setTextAlign "left"]
  else [CanvasOp.setTextAlign "center"]

/-- The `context.textBaseline` assignment of the reversed curved branch (none
for an unknown alignment). -/
def curvedRevBaselineOps (alignment : String) : List CanvasOp :=
  if alignment = "inner" then [CanvasOp.setTextBaseline "top"]
  else if alignment = "outer" then [CanvasOp.setTextBaseline "bottom"]
  else if alignment = "center" then [CanvasOp.setTextBaseline "middle"]
  else []

/-- The `context.textBaseline` assignment of the normal curved branch. -/
def curvedNormalBaselineOps (alignment : String) : List CanvasOp :=
  if alignment = "inner" then [CanvasOp.setTextBaseline "bottom"]
  else if alignment = "outer" then [CanvasOp.setTextBaseline "top"]
  else if alignment = "center" then [CanvasOp.setTextBaseline "middle"]
  else []

/-- Curved branch of `_drawTextReversed`. With an unknown alignment the JS
radius stays 0 and the spacing divides by it (`Infinity` in JS, 0 in `ℚ`);
that degenerate path is not exercised by any claim. After centring on the
segment the draw angle gets the wheel rotation added and 180 subtracted, and
the loop runs from `line.length` down to 0 — one index past the text. -/
def drawTextReversedCurved (p : TextParams) : List CanvasOp :=
  let radius :=
    if p.alignment = "inner" then p.innerRadius + p.margin
    else if p.alignment = "outer" then
      (p.outerRadius - p.margin) - p.fontSize * ((p.lineTotal : ℚ) - 1)
    else if p.alignment = "center" then
      p.innerRadius + p.margin + (p.outerRadius - p.innerRadius) / 2
    else 0
  let anglePerChar : ℚ :=
    if 1 < p.line.length then (4 * (p.fontSize / 10)) * (100 / radius) else 0
  let drawAngle0 : ℚ :=
    if 1 < p.line.length then
      p.startAngle + (p.endAngle - p.startAngle) / 2 -
        (anglePerChar * (p.line.length : ℚ)) / 2
    else p.startAngle + (p.endAngle - p.startAngle) / 2
  let drawAngle := drawAngle0 + p.rotationAngle - 180
  curvedRevBaselineOps p.alignment ++ curvedTextAlignOps p.line.length ++
    curvedCharsRev p.fillStyle p.strokeStyle p.line p.centerX p.centerY radius
      p.lineOffset anglePerChar (p.line.length + 1) drawAngle

/-- `Segment._drawTextReversed`: dispatch on the text orientation; any value
other than the three known ones throws. -/
def drawTextReversed (p : TextParams) : Except String (List CanvasOp) :=
  if p.orientation = "horizontal" then Except.ok (drawTextReversedHorizontal p)
  else if p.orientation = "vertical" then Except.ok (drawTextReversedVertical p)
  else if p.orientation = "curved" then Except.ok (drawTextReversedCurved p)
  else Except.error ("Invalid orientation: " ++ p.orientation)

/-- Horizontal branch of `_drawTextNormal`. -/
def drawTextNormalHorizontal (p : TextParams) : List CanvasOp :=
  let alignOp := CanvasOp.setTextAlign
    (if p.alignment = "inner" then "left"
     else if p.alignment = "outer" then "right" else "center")
  let textAngle := degToRad
    (p.endAngle - (p.endAngle - p.startAngle) / 2 + p.rotationAngle - 90)
  let x :=
    if p.alignment = "inner" then p.centerX + p.innerRadius + p.margin
    else if p.alignment = "outer" then p.centerX + p.outerRadius - p.margin
    else p.centerX + p.innerRadius + ((p.outerRadius - p.innerRadius) / 2) + p.margin
  [alignOp, CanvasOp.setTextBaseline "middle", CanvasOp.save,
   CanvasOp.translate p.centerX p.centerY, CanvasOp.rotate textAngle,
   CanvasOp.translate (-p.centerX) (-p.centerY)] ++
  optFillText p.fillStyle p.line x (p.centerY + p.lineOffset) ++
  optStrokeText p.strokeStyle p.line x (p.centerY + p.lineOffset) ++
  [CanvasOp.restore]

/-- Vertical branch of `_drawTextNormal`. -/
def drawTextNormalVertical (p : TextParams) : List CanvasOp :=
  let baselineOp := CanvasOp.setTextBaseline
    (if p.alignment = "inner" then "bottom"
     else if p.alignment = "outer" then "top" else "middle")
  let textAngle := p.endAngle - (p.endAngle - p.startAngle) / 2 + p.rotationAngle
  let yPos0 : ℚ :=
    if p.alignment = "outer" then p.centerY - p.outerRadius + p.margin
    else if p.alignment = "inner" then p.centerY - p.innerRadius - p.margin
    else 0
  let yInc := p.fontSize - p.fontSize / 9
  let x := p.centerX + p.lineOffset
  let loopOps :=
    if p.alignment = "outer" then
      vertCharsAsc p.fillStyle p.strokeStyle x yInc p.line.data yPos0
    else if p.alignment = "inner" then
      vertCharsDesc p.fillStyle p.strokeStyle x yInc p.line.data yPos0
    else if p.alignment = "center" then
      let centerAdjustment :=
        if 1 < p.line.length then yInc * ((p.line.length : ℚ) - 1) / 2 else 0
      let yPos2 := (p.centerY - p.innerRadius - ((p.outerRadius - p.innerRadius) / 2)) -
        centerAdjustment - p.margin
      vertCharsAsc p.fillStyle p.strokeStyle x yInc p.line.data yPos2
    else []
  [CanvasOp.setTextAlign "center", baselineOp, CanvasOp.save,
   CanvasOp.translate p.centerX p.centerY, CanvasOp.rotate (degToRad textAngle),
   CanvasOp.translate (-p.centerX) (-p.centerY)] ++ loopOps ++ [CanvasOp.restore]

/-- Curved branch of `_drawTextNormal`: like the reversed one but the loop
walks indexes `0` to `line.length - 1` and there is no 180-degree shift. -/
def drawTextNormalCurved (p : TextParams) : List CanvasOp :=
  let radius :=
    if p.alignment = "inner" then
      (p.innerRadius + p.margin) + p.fontSize * ((p.lineTotal : ℚ) - 1)
    else if p.alignment = "outer" then p.outerRadius - p.margin
    else if p.alignment = "center" then
      p.innerRadius + p.margin + (p.outerRadius - p.innerRadius) / 2
    else 0
  let anglePerChar : ℚ :=
    if 1 < p.line.length then (4 * (p.fontSize / 10)) * (100 / radius) else 0
  let drawAngle0 : ℚ :=
    if 1 < p.line.length then
      p.startAngle + ((p.endAngle - p.startAngle) / 2 -
        (anglePerChar * (p.line.length : ℚ)) / 2)
    else p.startAngle + (p.endAngle - p.startAngle) / 2
  let drawAngle := drawAngle0 + p.rotationAngle
  curvedNormalBaselineOps p.alignment ++ curvedTextAlignOps p.line.length ++
    curvedCharsAsc p.fillStyle p.strokeStyle p.centerX p.centerY radius
      p.lineOffset anglePerChar p.line.data drawAngle

/-- `Segment._drawTextNormal`: dispatch on the text orientation; any value
other than the three known ones throws (message without the colon of the
reversed variant). -/
def drawTextNormal (p : TextParams) : Except String (List CanvasOp) :=
  if p.orientation = "horizontal" then Except.ok (drawTextNormalHorizontal p)
  else if p.orientation = "vertical" then Except.ok (drawTextNormalVertical p)
  else if p.orientation = "curved" then Except.ok (drawTextNormalCurved p)
  else Except.error ("Invalid orientation " ++ p.orientation)

/-- The per-line dispatch inside `Segment.drawText`: the reversed path is
taken only when the direction is exactly "reversed"; EVERY other value —
including unknown ones — falls through to the normal path. -/
def drawTextLineDispatch (direction : String) (p : TextParams) :
    Except String (List CanvasOp) :=
  if direction = "reversed" then drawTextReversed p else drawTextNormal p

/-- JS truthiness of a nullable number: `null` and `0` are falsy. -/
def qTruthy : Option ℚ → Bool
  | none => false
  | some q => q != 0

/-- JS `segmentValue || wheelDefault` for string options with a non-null
wheel default. -/
def orResolveStr (seg : Option String) (dflt : String) : String :=
  if strTruthy seg then seg.getD "" else dflt

/-- JS `segmentValue || wheelDefault` for string options whose wheel default
may itself be null. -/
def orResolveStrOpt (seg dflt : Option String) : Option String :=
  if strTruthy seg then seg else dflt

/-- JS `segmentValue || wheelDefault` for numeric options. -/
def orResolveQ (seg : Option ℚ) (dflt : ℚ) : ℚ :=
  if qTruthy seg then seg.getD 0 else dflt

/-- Per-segment text options of `Segment.defaultOptions` (all null by
default), plus the segment's computed span. -/
structure SegmentTextOptions where
  text : String := ""
  textFontFamily : Option String := none
  textFontSize : Option ℚ := none
  textFontWeight : Option String := none
  textOrientation : Option String := none
  textAlignment : Option String := none
  textDirection : Option String := none
  textMargin : Option ℚ := none
  textFillStyle : Option String := none
  textStrokeStyle : Option String := none
  textLineWidth : Option ℚ := none
  startAngle : ℚ := 0
  endAngle : ℚ := 0
  deriving Repr, DecidableEq

/-- The wheel-level defaults consumed by `Segment.drawText` through its
`defaultOptions` argument. -/
structure WheelTextDefaults where
  textFontFamily : String := "Arial"
  textFontSize : ℚ := 20
  textFontWeight : String := "bold"
  textOrientation : String := "horizontal"
  textAlignment : String := "center"
  textDirection : String := "normal"
  textMargin : ℚ := 20 / 1.7
  textFillStyle : Option String := some "black"
  textStrokeStyle : Option String := none
  textLineWidth : ℚ := 1
  scaleFactor : ℚ := 1
  rotationAngle : ℚ := 0
  deriving Repr, DecidableEq

/-- Per-line loop of `Segment.drawText`: draw each line through the
direction dispatch, adding `fontSize` to the line offset after each line; a
thrown orientation error propagates out of the loop. -/
def drawTextLinesLoop (direction : String) (base : TextParams) :
    List String → ℚ → Except String (List CanvasOp)
  | [], _ => Except.ok []
  | l :: rest, lineOffset => do
      let ops ← drawTextLineDispatch direction
        { base with line := l, lineOffset := lineOffset }
      let more ← drawTextLinesLoop direction base rest (lineOffset + base.fontSize)
      Except.ok (ops ++ more)

/-- `Segment.drawText`: resolves every text option against the wheel default
with `||`, scales font size and margin, records the font/style context
assignments, splits the text on newlines, computes the starting line offset
(zeroed for curved inner/outer text) and draws each line. The font assignment
`context.font = compact([...]).join(' ')` is recorded structurally: each
component is `none` exactly when `compact` would drop it. -/
def segmentDrawText (seg : SegmentTextOptions) (d : WheelTextDefaults)
    (centerX centerY outerRadius innerRadius : ℚ) :
    Except String (List CanvasOp) :=
  if ¬ strTruthy (some seg.text) then Except.ok []
  else
    let fontFamily := orResolveStr seg.textFontFamily d.textFontFamily
    let fontSize0 := orResolveQ seg.textFontSize d.textFontSize
    let fontWeight := orResolveStr seg.textFontWeight d.textFontWeight
    let orientation := orResolveStr seg.textOrientation d.textOrientation
    let alignment := orResolveStr seg.textAlignment d.textAlignment
    let direction := orResolveStr seg.textDirection d.textDirection
    let margin0 := orResolveQ seg.textMargin d.textMargin
    let fillStyle := orResolveStrOpt seg.textFillStyle d.textFillStyle
    let strokeStyle := orResolveStrOpt seg.textStrokeStyle d.textStrokeStyle
    let lineWidth := orResolveQ seg.textLineWidth d.textLineWidth
    let fontSize := fontSize0 * d.scaleFactor
    let margin := margin0 * d.scaleFactor
    let contextOps :=
      [CanvasOp.setFont (if fontWeight.isEmpty then none else some fontWeight)
         (if fontSize = 0 then none else some fontSize)
         (if fontFamily.isEmpty then none else some fontFamily),
       CanvasOp.setFillStyle fillStyle,
       CanvasOp.setStrokeStyle strokeStyle,
       CanvasOp.setLineWidth lineWidth]
    let lines := seg.text.splitOn "\n"
    let lineOffset0 : ℚ :=
      if orientation = "curved" ∧ (alignment = "inner" ∨ alignment = "outer") then 0
      else 0 - fontSize * ((lines.length : ℚ) / 2) + fontSize / 2
    let base : TextParams :=
      { line := "", lineTotal := lines.length, centerX := centerX,
        centerY := centerY, outerRadius := outerRadius,
        innerRadius := innerRadius, fontSize := fontSize, margin := margin,
        lineOffset := 0, fillStyle := fillStyle, strokeStyle := strokeStyle,
        orientation := orientation, alignment := alignment,
        rotationAngle := d.rotationAngle, startAngle := seg.startAngle,
        endAngle := seg.endAngle }
    (drawTextLinesLoop direction base lines lineOffset0).map (contextOps ++ ·)

/-! ## Wheel draw dispatch (Winwheel.draw) -/

/-- One of the sub-drawing routines `Winwheel.draw` can invoke; their own
canvas output is specified separately. -/
inductive DrawAction where
  | clearCanvas
  | wheelImage
  | segmentImages
  | segments
  | segmentText
  | pins
  | pointerGuide
  deriving Repr, DecidableEq

/-- The wheel state read by `Winwheel.draw`. -/
structure WheelDrawState where
  hasCtx : Bool
  drawMode : String
  drawTextEnabled : Bool
  imageOverlay : Bool
  hasPins : Bool
  pinsVisible : Bool
  pointerGuideVisible : Bool
  deriving Repr, DecidableEq

/-- `Winwheel.draw(clearTheCanvas)`: without a context nothing happens;
otherwise the canvas is cleared on demand and the switch on `drawMode` runs
the image, segment-image or — for 'code' AND for every unrecognized value —
the code path; pins and the pointer guide follow. -/
def wheelDraw (st : WheelDrawState) (clearTheCanvas : Bool) : List DrawAction :=
  if ¬ st.hasCtx then []
  else
    (if clearTheCanvas then [DrawAction.clearCanvas] else []) ++
    (if st.drawMode = "image" then
      [DrawAction.wheelImage] ++
      (if st.drawTextEnabled then [DrawAction.segmentText] else []) ++
      (if st.imageOverlay then [DrawAction.segments] else [])
    else if st.drawMode = "segmentImage" then
      [DrawAction.segmentImages] ++
      (if st.drawTextEnabled then [DrawAction.segmentText] else []) ++
      (if st.imageOverlay then [DrawAction.segments] else [])
    else
      [DrawAction.segments] ++
      (if st.drawTextEnabled then [DrawAction.segmentText] else [])) ++
    (if st.hasPins ∧ st.pinsVisible then [DrawAction.pins] else []) ++
    (if st.pointerGuideVisible then [DrawAction.pointerGuide] else [])

/-! ## C7: error handling of invalid enum values -/

/-- Whether an `Except` result is a success (no raise). -/
def exceptIsOk : Except String (List CanvasOp) → Bool
  | Except.ok _ => true
  | Except.error _ => false

/-- Concrete horizontal-center text parameters used in the C7 scenarios. -/
def pEx : TextParams :=
  { line := "AB", lineTotal := 1, centerX := 100, centerY := 100,
    outerRadius := 80, innerRadius := 0, fontSize := 20, margin := 10,
    lineOffset := 0, fillStyle := some "black", strokeStyle := none,
    orientation := "horizontal", alignment := "center", rotationAngle := 0,
    startAngle := 0, endAngle := 90 }

/-- Concrete wheel draw state with an unrecognized draw mode. -/
def stEx : WheelDrawState :=
  { hasCtx := true, drawMode := "bogus", drawTextEnabled := true,
    imageOverlay := false, hasPins := false, pinsVisible := false,
    pointerGuideVisible := false }

/-- C7 counterexample: the invalid text direction "diagonal" does not raise —
the dispatch silently falls back to the normal-direction path and succeeds —
and the invalid draw mode "bogus" renders exactly like the 'code' mode instead
of raising. -/
theorem invalid_direction_fallback_ce :
    drawTextLineDispatch "diagonal" pEx = drawTextNormal pEx ∧
    exceptIsOk (drawTextLineDispatch "diagonal" pEx) = true ∧
    wheelDraw stEx true = wheelDraw { stEx with drawMode := "code" } true := by
  refine ⟨?_, ?_, ?_⟩
  · simp [drawTextLineDispatch]
  · simp [drawTextLineDispatch, drawTextNormal, pEx, exceptIsOk]
  · simp [wheelDraw, stEx]

/-- C7 (amended): only an invalid text ORIENTATION fails loudly — both text
paths raise on it. An invalid text direction does not raise: every direction
other than "reversed" silently falls back to the normal path. An invalid draw
mode does not raise either: the switch default silently draws in 'code' mode. -/
theorem invalid_enum_dispatch_amended (p : TextParams)
    (h1 : p.orientation ≠ "horizontal") (h2 : p.orientation ≠ "vertical")
    (h3 : p.orientation ≠ "curved")
    (d : String) (hd : d ≠ "reversed") (q : TextParams)
    (m : String) (hm1 : m ≠ "image") (hm2 : m ≠ "segmentImage")
    (st : WheelDrawState) (c : Bool) :
    drawTextNormal p = Except.error ("Invalid orientation " ++ p.orientation) ∧
    drawTextReversed p = Except.error ("Invalid orientation: " ++ p.orientation) ∧
    drawTextLineDispatch d q = drawTextNormal q ∧
    wheelDraw { st with drawMode := m } c = wheelDraw { st with drawMode := "code" } c := by
  refine ⟨?_, ?_, ?_, ?_⟩
  · simp [drawTextNormal, h1, h2, h3]
  · simp [drawTextReversed, h1, h2, h3]
  · simp [drawTextLineDispatch, hd]
  · simp [wheelDraw, hm1, hm2]

/-- C7 witness: the invalid orientation "slanted" raises in both paths, while
the invalid direction "backwards" and the invalid draw mode "fancy" fall back. -/
theorem invalid_enum_dispatch_witness :
    drawTextNormal { pEx with orientation := "slanted" } =
      Except.error ("Invalid orientation " ++ "slanted") ∧
    drawTextReversed { pEx with orientation := "slanted" } =
      Except.error ("Invalid orientation: " ++ "slanted") ∧
    drawTextLineDispatch "backwards" pEx = drawTextNormal pEx ∧
    wheelDraw { stEx with drawMode := "fancy" } true =
      wheelDraw { stEx with drawMode := "code" } true := by
  have h := invalid_enum_dispatch_amended { pEx with orientation := "slanted" }
    (by simp) (by simp) (by simp) "backwards" (by simp) pEx
    "fancy" (by simp) (by simp) stEx true
  exact h

/-! ## C9: reversed curved loop off-by-one -/

/-- Recognizer for the `context.save()` call that opens every curved-loop
iteration. -/
def isSave : CanvasOp → Bool
  | CanvasOp.save => true
  | _ => false

/-- The strings handed to `context.fillText`, in drawing order. -/
def fillTextStrings (ops : List CanvasOp) : List String :=
  ops.filterMap fun op =>
    match op with
    | CanvasOp.fillText s _ _ => some s
    | _ => none

theorem filter_isSave_optFill (fs : Option String) (s : String) (x y : ℚ) :
    (optFillText fs s x y).filter isSave = [] := by
  unfold optFillText
  split_ifs <;> rfl

theorem filter_isSave_optStroke (fs : Option String) (s : String) (x y : ℚ) :
    (optStrokeText fs s x y).filter isSave = [] := by
  unfold optStrokeText
  split_ifs <;> rfl

theorem fillTextStrings_optStroke (fs : Option String) (s : String) (x y : ℚ) :
    fillTextStrings (optStrokeText fs s x y) = [] := by
  unfold optStrokeText
  split_ifs <;> rfl

theorem fillTextStrings_optFill_true (fs : Option String) (s : String) (x y : ℚ)
    (h : strTruthy fs = true) :
    fillTextStrings (optFillText fs s x y) = [s] := by
  unfold optFillText
  rw [if_pos h]
  rfl

theorem filter_isSave_curvedRevBaseline (a : String) :
    (curvedRevBaselineOps a).filter isSave = [] := by
  unfold curvedRevBaselineOps
  split_ifs <;> rfl

theorem fillTextStrings_curvedRevBaseline (a : String) :
    fillTextStrings (curvedRevBaselineOps a) = [] := by
  unfold curvedRevBaselineOps
  split_ifs <;> rfl

theorem filter_isSave_curvedAlign (n : ℕ) :
    (curvedTextAlignOps n).filter isSave = [] := by
  unfold curvedTextAlignOps
  split_ifs <;> rfl

theorem fillTextStrings_curvedAlign (n : ℕ) :
    fillTextStrings (curvedTextAlignOps n) = [] := by
  unfold curvedTextAlignOps
  split_ifs <;> rfl

theorem curvedCharsRev_saves (fill stroke : Option String) (line : String)
    (cx cy r lo apc : ℚ) :
    ∀ (n : ℕ) (a : ℚ),
      ((curvedCharsRev fill stroke line cx cy r lo apc n a).filter isSave).length = n := by
  intro n
  induction n with
  | zero => intro a; rfl
  | succ k ih =>
      intro a
      simp [curvedCharsRev, List.filter_append, filter_isSave_optFill,
        filter_isSave_optStroke, isSave, ih]


theorem fillTextStrings_append (l1 l2 : List CanvasOp) :
    fillTextStrings (l1 ++ l2) = fillTextStrings l1 ++ fillTextStrings l2 :=
  List.filterMap_append l1 l2 _

theorem fillTextStrings_loop_prefix (cx cy rad : ℚ) :
    fillTextStrings [CanvasOp.save, CanvasOp.translate cx cy, CanvasOp.rotate rad,
      CanvasOp.translate (-cx) (-cy)] = [] := rfl

theorem fillTextStrings_restore :
    fillTextStrings [CanvasOp.restore] = [] := rfl

theorem curvedCharsRev_fills (fill stroke : Option String) (line : String)
    (cx cy r lo apc : ℚ) (hfill : strTruthy fill = true) :
    ∀ (n : ℕ) (a : ℚ),
      fillTextStrings (curvedCharsRev fill stroke line cx cy r lo apc n a) =
        (List.range n).reverse.map (charAt line) := by
  intro n
  induction n with
  | zero => intro a; rfl
  | succ k ih =>
      intro a
      have hrev : (List.range (k + 1)).reverse.map (charAt line) =
          charAt line k :: (List.range k).reverse.map (charAt line) := by
        rw [List.range_succ, List.reverse_append]
        rfl
      rw [hrev]
      simp only [curvedCharsRev, fillTextStrings_append, fillTextStrings_loop_prefix,
        fillTextStrings_restore, fillTextStrings_optStroke,
        fillTextStrings_optFill_true fill (charAt line k) cx (cy + r + lo) hfill, ih]
      simp

theorem charAt_of_lt (s : String) (i : ℕ) (h : i < s.data.length) :
    charAt s i = String.singleton (s.data.get ⟨i, h⟩) := by
  unfold charAt
  rw [List.get?_eq_get h]

theorem charAt_length (s : String) : charAt s s.length = "" := by
  unfold charAt
  have h : s.data.length ≤ s.length := Nat.le_of_eq rfl
  rw [List.get?_eq_none.mpr h]

theorem range_map_charAt (s : String) :
    (List.range s.length).map (charAt s) = s.data.map String.singleton := by
  apply List.ext_get
  · rw [List.length_map, List.length_range, List.length_map]
    rfl
  · intro n h1 h2
    simp only [List.get_map, List.get_range]
    have hn : n < s.data.length := by
      have h3 := h1
      rw [List.length_map, List.length_range] at h3
      exact h3
    rw [charAt_of_lt s n hn]

/-- C9: for every line drawn reversed and curved, the character loop runs
`line.length + 1` iterations (one `save` per iteration) — from index `length`
down to 0 inclusive — and the first drawn string is the empty string produced
by the out-of-range `charAt(length)` read, followed by the characters of the
line in reverse order. -/
theorem reversedCurved_offByOne (p : TextParams)
    (hor : p.orientation = "curved") (hfill : strTruthy p.fillStyle = true) :
    drawTextReversed p = Except.ok (drawTextReversedCurved p) ∧
    ((drawTextReversedCurved p).filter isSave).length = p.line.length + 1 ∧
    fillTextStrings (drawTextReversedCurved p) =
      "" :: (p.line.data.map String.singleton).reverse := by
  refine ⟨?_, ?_, ?_⟩
  · simp [drawTextReversed, hor]
  · simp only [drawTextReversedCurved, List.filter_append, List.length_append,
      filter_isSave_curvedRevBaseline, filter_isSave_curvedAlign,
      curvedCharsRev_saves]
    simp
  · simp only [drawTextReversedCurved, fillTextStrings_append,
      fillTextStrings_curvedRevBaseline, fillTextStrings_curvedAlign,
      curvedCharsRev_fills p.fillStyle p.strokeStyle p.line p.centerX p.centerY _
        p.lineOffset _ hfill]
    rw [List.range_succ, List.reverse_append]
    simp only [List.reverse_singleton, List.singleton_append, List.map_cons]
    rw [charAt_length, List.map_reverse, range_map_charAt]
    simp

/-- Concrete curved reversed parameters with the two-character line "ab". -/
def pC9 : TextParams :=
  { pEx with orientation := "curved", line := "ab" }

/-- C9 witness: for the line "ab" the reversed curved loop performs 3
iterations and fills the strings `["", "b", "a"]`. -/
theorem reversedCurved_offByOne_witness :
    drawTextReversed pC9 = Except.ok (drawTextReversedCurved pC9) ∧
    ((drawTextReversedCurved pC9).filter isSave).length = 3 ∧
    fillTextStrings (drawTextReversedCurved pC9) = ["", "b", "a"] := by
  have h := reversedCurved_offByOne pC9 rfl rfl
  refine ⟨h.1, ?_, ?_⟩
  · rw [h.2.1]
    rfl
  · rw [h.2.2]
    rfl

/-! ## Hit tester (Winwheel.getSegmentNumberAt, over ℝ)

`Math.atan` and `Math.sqrt` force this part of the embedding onto the real
numbers, so these definitions are noncomputable; they mirror
`windowToCanvas` / `getSegmentNumberAt` line by line. -/

/-- The wheel/canvas state read by `getSegmentNumberAt`, including the
canvas bounding box used by `windowToCanvas`. Segments are their
`(_startAngle, _endAngle)` spans. -/
structure HitState where
  centerX : ℝ
  centerY : ℝ
  scaleFactor : ℝ
  outerRadius : ℝ
  innerRadius : ℝ
  rotationAngle : ℝ
  canvasWidth : ℝ
  canvasHeight : ℝ
  bboxLeft : ℝ
  bboxTop : ℝ
  bboxWidth : ℝ
  bboxHeight : ℝ
  segments : List (ℝ × ℝ)

/-- `Winwheel.windowToCanvas`: shifts by the bounding box and floors both
coordinates. -/
noncomputable def windowToCanvas (st : HitState) (x y : ℝ) : ℝ × ℝ :=
  ((⌊x - st.bboxLeft * (st.canvasWidth / st.bboxWidth)⌋ : ℤ),
   (⌊y - st.bboxTop * (st.canvasHeight / st.bboxHeight)⌋ : ℤ))

/-- `Winwheel.getRotationPosition`, real-valued reading of the same source
function embedded over `ℚ` above, as called inside the hit tester. -/
noncomputable def getRotationPositionReal (rawAngle : ℝ) : ℝ :=
  if 0 ≤ rawAngle then
    if 360 < rawAngle then rawAngle - 360 * (⌊rawAngle / 360⌋ : ℝ) else rawAngle
  else
    (if rawAngle < -360 then rawAngle - 360 * (⌈rawAngle / 360⌉ : ℝ) else rawAngle) + 360

/-- The `adjacentSideLength` of the right triangle: distance along x from the
scaled center, using the quadrant split `loc.x > centerX`. -/
noncomputable def adjacentSideOf (st : HitState) (x y : ℝ) : ℝ :=
  if st.centerX * st.scaleFactor < (windowToCanvas st x y).1
  then (windowToCanvas st x y).1 - st.centerX * st.scaleFactor
  else st.centerX * st.scaleFactor - (windowToCanvas st x y).1

/-- The `oppositeSideLength`: distance along y from the scaled center. -/
noncomputable def oppositeSideOf (st : HitState) (x y : ℝ) : ℝ :=
  if st.centerY * st.scaleFactor < (windowToCanvas st x y).2
  then (windowToCanvas st x y).2 - st.centerY * st.scaleFactor
  else st.centerY * st.scaleFactor - (windowToCanvas st x y).2

/-- `Math.atan(opposite/adjacent) * 180/PI`. When the adjacent side is 0 the
JS quotient is `Infinity` and `Math.atan` returns pi/2, i.e. 90 degrees; since
real division by zero is 0 here, that case is made explicit. (The doubly
degenerate center point, `0/0 = NaN` in JS, is handled by the caller.) -/
noncomputable def atanResultOf (st : HitState) (x y : ℝ) : ℝ :=
  if adjacentSideOf st x y = 0 then 90
  else Real.arctan (oppositeSideOf st x y / adjacentSideOf st x y) * 180 / Real.pi

/-- The quadrant correction: `Math.round` of `90-r`, `r+90`, `(90-r)+180` or
`r+270` for the T/R, B/R, B/L and T/L quadrants — always an integer, hence
the `ℤ` result type. -/
noncomputable def locationAngleOf (st : HitState) (x y : ℝ) : ℤ :=
  if ¬ st.centerY * st.scaleFactor < (windowToCanvas st x y).2 ∧
      st.centerX * st.scaleFactor < (windowToCanvas st x y).1 then
    round (90 - atanResultOf st x y)
  else if st.centerY * st.scaleFactor < (windowToCanvas st x y).2 ∧
      st.centerX * st.scaleFactor < (windowToCanvas st x y).1 then
    round (atanResultOf st x y + 90)
  else if st.centerY * st.scaleFactor < (windowToCanvas st x y).2 ∧
      ¬ st.centerX * st.scaleFactor < (windowToCanvas st x y).1 then
    round (90 - atanResultOf st x y + 180)
  else
    round (atanResultOf st x y + 270)

/-- `hypotenuseSideLength = Math.sqrt(opposite^2 + adjacent^2)`. -/
noncomputable def hypotenuseOf (st : HitState) (x y : ℝ) : ℝ :=
  Real.sqrt (oppositeSideOf st x y * oppositeSideOf st x y +
    adjacentSideOf st x y * adjacentSideOf st x y)

/-- The rotation adjustment: when `rotationAngle != 0` the normalized rotation
is subtracted and a negative result is wrapped as `360 - abs`. -/
noncomputable def adjustedLocationAngle (st : HitState) (x y : ℝ) : ℝ :=
  if st.rotationAngle ≠ 0 then
    if (locationAngleOf st x y : ℝ) - getRotationPositionReal st.rotationAngle < 0 then
      360 - |(locationAngleOf st x y : ℝ) - getRotationPositionReal st.rotationAngle|
    else (locationAngleOf st x y : ℝ) - getRotationPositionReal st.rotationAngle
  else (locationAngleOf st x y : ℝ)

/-- The final linear scan: the first segment whose `[startAngle, endAngle]`
contains the location angle (both ends inclusive — ties go to the earlier
segment) AND whose ring `[innerRadius, outerRadius]` contains the hypotenuse. -/
noncomputable def scanSegments :
    List (ℝ × ℝ) → ℝ → ℝ → ℝ → ℝ → ℕ → Option ℕ
  | [], _, _, _, _, _ => none
  | (s, e) :: rest, loc, hyp, innerR, outerR, i =>
      if s ≤ loc ∧ loc ≤ e ∧ innerR ≤ hyp ∧ hyp ≤ outerR then some i
      else scanSegments rest loc hyp innerR outerR (i + 1)

/-- `Winwheel.getSegmentNumberAt(x, y)`: at the exact center both triangle
sides are 0, the JS tangent is `0/0 = NaN`, every comparison with the `NaN`
location angle is false and the scan finds nothing — embedded as an explicit
`none`. Otherwise the scan runs on the rounded, rotation-adjusted bearing. -/
noncomputable def getSegmentNumberAt (st : HitState) (x y : ℝ) : Option ℕ :=
  if adjacentSideOf st x y = 0 ∧ oppositeSideOf st x y = 0 then none
  else
    scanSegments st.segments (adjustedLocationAngle st x y) (hypotenuseOf st x y)
      (st.innerRadius * st.scaleFactor) (st.outerRadius * st.scaleFactor) 0

theorem scanSegments_some (segs : List (ℝ × ℝ)) :
    ∀ (loc hyp ir orr : ℝ) (i j : ℕ),
      scanSegments segs loc hyp ir orr i = some j →
      ∃ k p, segs.get? k = some p ∧ j = i + k ∧
        p.1 ≤ loc ∧ loc ≤ p.2 ∧ ir ≤ hyp ∧ hyp ≤ orr := by
  induction segs with
  | nil => intro loc hyp ir orr i j h; simp [scanSegments] at h
  | cons hd tl ih =>
      intro loc hyp ir orr i j h
      obtain ⟨s, e⟩ := hd
      by_cases hc : s ≤ loc ∧ loc ≤ e ∧ ir ≤ hyp ∧ hyp ≤ orr
      · rw [scanSegments, if_pos hc] at h
        injection h with h
        exact ⟨0, (s, e), rfl, by omega, hc.1, hc.2.1, hc.2.2.1, hc.2.2.2⟩
      · rw [scanSegments, if_neg hc] at h
        obtain ⟨k, p, hget, hj, hc1, hc2, hc3, hc4⟩ := ih loc hyp ir orr (i + 1) j h
        exact ⟨k + 1, p, hget, by omega, hc1, hc2, hc3, hc4⟩

theorem adjustedLocationAngle_int (st : HitState) (x y : ℝ)
    (hrot : ∃ m : ℤ, getRotationPositionReal st.rotationAngle = (m : ℝ)) :
    ∃ k : ℤ, adjustedLocationAngle st x y = (k : ℝ) := by
  obtain ⟨m, hm⟩ := hrot
  unfold adjustedLocationAngle
  by_cases h : st.rotationAngle ≠ 0
  · rw [if_pos h, hm]
    by_cases h2 : (locationAngleOf st x y : ℝ) - (m : ℝ) < 0
    · rw [if_pos h2]
      refine ⟨360 - |locationAngleOf st x y - m|, ?_⟩
      push_cast
      ring
    · rw [if_neg h2]
      refine ⟨locationAngleOf st x y - m, ?_⟩
      push_cast
      ring
  · rw [if_neg h]
    exact ⟨locationAngleOf st x y, rfl⟩

theorem hit_integer_span_aux (st : HitState) (x y : ℝ) (j : ℕ)
    (hrot : ∃ m : ℤ, getRotationPositionReal st.rotationAngle = (m : ℝ))
    (hj : getSegmentNumberAt st x y = some j) :
    ∃ p, st.segments.get? j = some p ∧
      ∃ k : ℤ, p.1 ≤ (k : ℝ) ∧ (k : ℝ) ≤ p.2 := by
  unfold getSegmentNumberAt at hj
  split at hj
  · exact absurd hj (by simp)
  · obtain ⟨k0, p, hget, hjeq, h1, h2, _, _⟩ :=
      scanSegments_some st.segments _ _ _ _ 0 j hj
    obtain ⟨ki, hki⟩ := adjustedLocationAngle_int st x y hrot
    rw [hki] at h1 h2
    refine ⟨p, ?_, ki, h1, h2⟩
    rw [hjeq]
    simpa using hget

/-- C6 (amended): every quadrant branch of the hit tester rounds the bearing
with `Math.round`, so whenever the normalized rotation is an integer — as for
all the claimed rotations 0, 90, 359, 720, -45 — the location angle compared
against the spans is an integer. `getSegmentNumberAt` can therefore return a
segment only if that segment's `[startAngle, endAngle]` span contains an
integer; a point at the mid-angle of a segment whose span contains no integer
is never resolved to that segment (see the counterexample), so the claimed
round-trip can hold only for segments whose span contains the rounded
bearing. -/
theorem hit_integer_span_amended (st : HitState) (x y : ℝ) (j : ℕ)
    (hrot : ∃ m : ℤ, getRotationPositionReal st.rotationAngle = (m : ℝ))
    (hj : getSegmentNumberAt st x y = some j) :
    ∃ p, st.segments.get? j = some p ∧
      ∃ k : ℤ, p.1 ≤ (k : ℝ) ∧ (k : ℝ) ≤ p.2 :=
  hit_integer_span_aux st x y j hrot hj

theorem getRotationPositionReal_zero : getRotationPositionReal 0 = ((0 : ℤ) : ℝ) := by
  unfold getRotationPositionReal
  rw [if_pos le_rfl, if_neg (by norm_num)]
  norm_num

/-- The thin-segment wheel of the C6 counterexample: spans
`[0,45.2], [45.2,45.8], [45.8,360]`, no rotation, identity bounding box. -/
noncomputable def thinSegWheel : HitState :=
  { centerX := 200, centerY := 200, scaleFactor := 1, outerRadius := 200,
    innerRadius := 0, rotationAngle := 0, canvasWidth := 400, canvasHeight := 400,
    bboxLeft := 0, bboxTop := 0, bboxWidth := 400, bboxHeight := 400,
    segments := [(0, 45.2), (45.2, 45.8), (45.8, 360)] }

/-- C6 counterexample: segment 1 spans `[45.2, 45.8]` and its mid-angle is
45.5; the point at exactly that mid-angle and at the radial midpoint 100
(rotation 0, which is in the claimed rotation set) is NOT resolved to segment
1 — the rounded bearing is an integer and no integer lies in `[45.2, 45.8]`. -/
theorem hit_midangle_not_resolved_ce :
    thinSegWheel.segments.get? 1 = some (45.2, 45.8) ∧
    getSegmentNumberAt thinSegWheel
        (200 + 100 * Real.sin (45.5 * Real.pi / 180))
        (200 - 100 * Real.cos (45.5 * Real.pi / 180)) ≠ some 1 := by
  refine ⟨rfl, ?_⟩
  intro h
  have hrot : ∃ m : ℤ, getRotationPositionReal thinSegWheel.rotationAngle = (m : ℝ) :=
    ⟨0, by rw [show thinSegWheel.rotationAngle = (0 : ℝ) from rfl,
      getRotationPositionReal_zero]⟩
  obtain ⟨p, hget, ki, h1, h2⟩ := hit_integer_span_aux thinSegWheel _ _ 1 hrot h
  have hp : p = ((45.2 : ℝ), (45.8 : ℝ)) := by
    rw [show thinSegWheel.segments.get? 1 = some ((45.2 : ℝ), (45.8 : ℝ)) from rfl] at hget
    injection hget with hget
    exact hget.symm
  rw [hp] at h1 h2
  have hlo : (45 : ℤ) < ki := by
    have : (45 : ℝ) < (ki : ℝ) := by
      calc (45 : ℝ) < 45.2 := by norm_num
      _ ≤ (ki : ℝ) := h1
    exact_mod_cast this
  have hhi : ki < (46 : ℤ) := by
    have : (ki : ℝ) < (46 : ℝ) := by
      calc (ki : ℝ) ≤ 45.8 := h2
      _ < 46 := by norm_num
    exact_mod_cast this
  omega

/-- A plain two-segment wheel (spans `[0,180]` and `[180,360]`) used to run
the hit tester on an exactly representable point. -/
noncomputable def simpleHitWheel : HitState :=
  { centerX := 200, centerY := 200, scaleFactor := 1, outerRadius := 200,
    innerRadius := 0, rotationAngle := 0, canvasWidth := 400, canvasHeight := 400,
    bboxLeft := 0, bboxTop := 0, bboxWidth := 400, bboxHeight := 400,
    segments := [(0, 180), (180, 360)] }

theorem simpleHit_window : windowToCanvas simpleHitWheel 300 200 = (300, 200) := by
  simp only [windowToCanvas, simpleHitWheel]
  norm_num

theorem simpleHit_adjacent : adjacentSideOf simpleHitWheel 300 200 = 100 := by
  unfold adjacentSideOf
  rw [simpleHit_window]
  simp only [simpleHitWheel]
  norm_num

theorem simpleHit_opposite : oppositeSideOf simpleHitWheel 300 200 = 0 := by
  unfold oppositeSideOf
  rw [simpleHit_window]
  simp only [simpleHitWheel]
  norm_num

theorem simpleHit_atan : atanResultOf simpleHitWheel 300 200 = 0 := by
  unfold atanResultOf
  rw [simpleHit_adjacent, simpleHit_opposite]
  rw [if_neg (by norm_num)]
  norm_num [Real.arctan_zero]

theorem simpleHit_locationAngle : locationAngleOf simpleHitWheel 300 200 = 90 := by
  unfold locationAngleOf
  rw [simpleHit_window, simpleHit_atan]
  rw [if_pos (by constructor <;> simp [simpleHitWheel] <;> norm_num)]
  norm_num [round_eq]

theorem simpleHit_hyp : hypotenuseOf simpleHitWheel 300 200 = 100 := by
  unfold hypotenuseOf
  rw [simpleHit_adjacent, simpleHit_opposite]
  rw [show (0 : ℝ) * 0 + 100 * 100 = 100 ^ 2 by norm_num]
  exact Real.sqrt_sq (by norm_num)

theorem simpleHit_adjusted : adjustedLocationAngle simpleHitWheel 300 200 = 90 := by
  unfold adjustedLocationAngle
  rw [if_neg (by simp [simpleHitWheel])]
  rw [simpleHit_locationAngle]
  norm_num

theorem simpleHit_eval : getSegmentNumberAt simpleHitWheel 300 200 = some 0 := by
  unfold getSegmentNumberAt
  rw [if_neg (by rw [simpleHit_adjacent]; norm_num)]
  rw [simpleHit_adjusted, simpleHit_hyp]
  rw [show simpleHitWheel.segments = [((0 : ℝ), (180 : ℝ)), ((180 : ℝ), (360 : ℝ))] from rfl]
  rw [scanSegments, if_pos]
  constructor
  · norm_num
  refine ⟨by norm_num, ?_, ?_⟩
  · show simpleHitWheel.innerRadius * simpleHitWheel.scaleFactor ≤ 100
    rw [show simpleHitWheel.innerRadius = (0 : ℝ) from rfl,
      show simpleHitWheel.scaleFactor = (1 : ℝ) from rfl]
    norm_num
  · show (100 : ℝ) ≤ simpleHitWheel.outerRadius * simpleHitWheel.scaleFactor
    rw [show simpleHitWheel.outerRadius = (200 : ℝ) from rfl,
      show simpleHitWheel.scaleFactor = (1 : ℝ) from rfl]
    norm_num

/-- C6 witness: on the two-segment wheel the point `(300, 200)` — bearing 90,
radius 100, i.e. the mid-angle and mid-radius of segment 0 — is resolved with
an integer-containing span, instantiating the amended theorem at rotation 0. -/
theorem hit_integer_span_witness :
    ∃ p, simpleHitWheel.segments.get? 0 = some p ∧
      ∃ k : ℤ, p.1 ≤ (k : ℝ) ∧ (k : ℝ) ≤ p.2 :=
  hit_integer_span_amended simpleHitWheel 300 200 0
    ⟨0, by rw [show simpleHitWheel.rotationAngle = (0 : ℝ) from rfl,
      getRotationPositionReal_zero]⟩
    simpleHit_eval
